import Mathlib

/-!
# Verification of the CBAM Declaration Ledger

A shallow embedding in Lean 4 of the declaration / import-line ledger of the
macf-light repository: the mongoose models `CbamDeclaration` and `CbamImport`
(status workflow methods, summary recomputation, deadline table, certificate
arithmetic) and the Next.js API route handlers that drive them
(`/api/declarations`, `/api/declarations/[id]`,
`/api/declarations/[id]/imports`, `/api/declarations/[id]/imports/[importId]`).

JavaScript numbers are modelled as exact rationals, `Date` construction as a
calendar-date normalisation, mongoose documents as Lean structures, thrown
errors as `Except` values drawn from the error taxonomy, and the persistent
store as explicit lists threaded through the route handlers.
-/

namespace Cbam

/-- Status enum of `CbamDeclarationSchema.status`:
`draft | submitted | validated | rejected | pending`. -/
inductive DeclarationStatus where
  | draft
  | submitted
  | validated
  | rejected
  | pending
deriving DecidableEq, Repr

/-- Status enum of `CbamImportSchema.status`:
`pending | processing | completed | error`. -/
inductive ImportStatus where
  | pending
  | processing
  | completed
  | error
deriving DecidableEq, Repr

/-- The typed error taxonomy of the ledger.  Each constructor names one of the
failure modes the route handlers and model methods signal (as HTTP 400/404
responses or thrown errors in the source). -/
inductive CbamError where
  | validationError (field : String)
  | declarationNotEditable
  | cannotSubmit
  | invalidTransition
  | duplicatePeriod
  | productNotFound
  | invalidPeriod
  | notFound
deriving DecidableEq, Repr

/-- JavaScript `x || d` on an optional number: `undefined` and `0` are falsy,
so both yield the default.  Embeds `imp.carbonCertificates || 0`. -/
def jsNumOr (o : Option ℚ) (d : ℚ) : ℚ :=
  match o with
  | none => d
  | some x => if x = 0 then d else x

/-- The `trim: true` setter of the mongoose string schema options
(JavaScript `String.prototype.trim` applied on assignment): strips leading
and trailing whitespace. -/
def jsTrim (s : String) : String :=
  ⟨((s.data.dropWhile Char.isWhitespace).reverse.dropWhile Char.isWhitespace).reverse⟩

/-- A calendar date, month 1..12. -/
structure CalDate where
  year : ℤ
  month : ℕ
  day : ℕ
deriving DecidableEq, Repr

/-- Whether a year is a leap year in the proleptic Gregorian calendar used by
JavaScript `Date`. -/
def isLeapYear (y : ℤ) : Bool :=
  (y % 4 == 0 && y % 100 != 0) || y % 400 == 0

/-- Number of days of the month with 0-based index `m` of year `y`
(JavaScript `Date` month indexing). -/
def daysInMonth (y : ℤ) (m : ℕ) : ℕ :=
  match m with
  | 0 => 31
  | 1 => if isLeapYear y then 29 else 28
  | 2 => 31
  | 3 => 30
  | 4 => 31
  | 5 => 30
  | 6 => 31
  | 7 => 31
  | 8 => 30
  | 9 => 31
  | 10 => 30
  | _ => 31

/-- Embedding of the JavaScript constructor `new Date(y, m, d)` for a 0-based
month index `m` in 0..11 and a day `d` that overflows the month by at most one
month: an in-range day names that day of month `m`, an overflowing day is
normalised into the following month, as the JavaScript engine does. -/
def jsDate (y : ℤ) (m : ℕ) (d : ℕ) : CalDate :=
  if d ≤ daysInMonth y m then ⟨y, m + 1, d⟩
  else if m = 11 then ⟨y + 1, 1, d - daysInMonth y m⟩
  else ⟨y, m + 2, d - daysInMonth y m⟩

/-- The deadline table of `calculateDeadline` (identical in
`src/app/api/declarations/route.ts` and in the `CbamDeclaration` model):
`[new Date(year, 4, 31), new Date(year, 7, 31), new Date(year, 10, 30),
new Date(year + 1, 1, 28)]` indexed by `quarter - 1`.  Out-of-range quarters
index outside the array (JavaScript `undefined`), hence the `Option`. -/
def calculateDeadline (year : ℤ) (quarter : ℕ) : Option CalDate :=
  [jsDate year 4 31, jsDate year 7 31, jsDate year 10 30,
   jsDate (year + 1) 1 28].get? (quarter - 1)

/-- One import line: the fields of `CbamImportSchema` the ledger logic reads
(`_id` modelled as `id`; the attached-document list is not involved in any
arithmetic and is omitted). -/
structure CbamImport where
  id : ℕ
  productId : ℕ
  supplierName : String
  supplierCountry : String
  quantity : ℚ
  unitValue : ℚ
  totalValue : ℚ
  carbonEmissions : ℚ
  carbonCertificates : Option ℚ
  status : ImportStatus
  notes : Option String
deriving DecidableEq, Repr

/-- The `summary` sub-document of `CbamDeclarationSchema`. -/
structure DeclarationSummary where
  totalImports : ℕ
  totalQuantity : ℚ
  totalValue : ℚ
  totalEmissions : ℚ
  totalCertificatesRequired : ℚ
  totalCertificatesHeld : ℚ
deriving DecidableEq, Repr

/-- The all-zero summary a freshly created declaration receives in the POST
`/api/declarations` handler. -/
def zeroSummary : DeclarationSummary :=
  { totalImports := 0
    totalQuantity := 0
    totalValue := 0
    totalEmissions := 0
    totalCertificatesRequired := 0
    totalCertificatesHeld := 0 }

/-- The `reportingPeriod` sub-document. -/
structure ReportingPeriod where
  quarter : ℕ
  year : ℤ
deriving DecidableEq, Repr

/-- One declaration: the fields of `CbamDeclarationSchema` (`_id` and `userId`
modelled as naturals, timestamps as abstract natural clock values). -/
structure Declaration where
  id : ℕ
  userId : ℕ
  reportingPeriod : ReportingPeriod
  status : DeclarationStatus
  summary : DeclarationSummary
  deadlineDate : CalDate
  submittedAt : Option ℕ := none
  validatedAt : Option ℕ := none
  rejectedAt : Option ℕ := none
  rejectionReason : Option String := none
  notes : Option String := none
deriving DecidableEq, Repr

/-- `canBeEdited()`: `this.status === draft || this.status === rejected`. -/
def canBeEdited (d : Declaration) : Bool :=
  d.status == DeclarationStatus.draft || d.status == DeclarationStatus.rejected

/-- `canBeSubmitted()`: `this.status === draft && this.summary.totalImports > 0`. -/
def canBeSubmitted (d : Declaration) : Bool :=
  d.status == DeclarationStatus.draft && decide (0 < d.summary.totalImports)

/-- `submit()`: throws when `!canBeSubmitted()`, else sets
`status = submitted` and `submittedAt = new Date()`. -/
def submit (d : Declaration) (now : ℕ) : Except CbamError Declaration :=
  if ! canBeSubmitted d then .error .cannotSubmit
  else .ok { d with status := .submitted, submittedAt := some now }

/-- `validate()` on the declaration model: throws unless
`status === submitted`, else sets `status = validated` and
`validatedAt = new Date()`. -/
def validateDeclaration (d : Declaration) (now : ℕ) : Except CbamError Declaration :=
  if d.status != DeclarationStatus.submitted then .error .invalidTransition
  else .ok { d with status := .validated, validatedAt := some now }

/-- `reject(reason)`: throws unless `status === submitted`; otherwise assigns
`status = rejected`, `rejectedAt = new Date()` and
`rejectionReason = reason` — the schema trim setter stores the trimmed
reason — and returns `this.save()`, whose schema validation fails when the
stored reason exceeds the 1000-character maxlength.  Beyond that the source
performs no check on the reason string; in particular an empty reason is
accepted. -/
def reject (d : Declaration) (reason : String) (now : ℕ) : Except CbamError Declaration :=
  if d.status != DeclarationStatus.submitted then .error .invalidTransition
  else
    let stored := jsTrim reason
    if stored.length > 1000 then .error (.validationError "rejectionReason")
    else .ok { d with status := .rejected, rejectedAt := some now,
                      rejectionReason := some stored }

/-- The summary `updateSummary()` computes from the current import lines of
the declaration, mirroring the `Array.prototype.reduce` folds of the source. -/
def computeSummary (imports : List CbamImport) : DeclarationSummary :=
  { totalImports := imports.length
    totalQuantity := imports.foldl (fun sum imp => sum + imp.quantity) 0
    totalValue := imports.foldl (fun sum imp => sum + imp.totalValue) 0
    totalEmissions := imports.foldl (fun sum imp => sum + imp.carbonEmissions) 0
    totalCertificatesRequired := imports.foldl (fun sum imp => sum + imp.carbonEmissions) 0
    totalCertificatesHeld :=
      imports.foldl (fun sum imp => sum + jsNumOr imp.carbonCertificates 0) 0 }

/-- `updateSummary()`: reads the import lines with this declaration id and
overwrites `this.summary` with the recomputed aggregate. -/
def updateSummary (d : Declaration) (imports : List CbamImport) : Declaration :=
  { d with summary := computeSummary imports }

/-- `calculateCertificatesRequired()`: `Math.ceil(this.carbonEmissions)`. -/
def calculateCertificatesRequired (imp : CbamImport) : ℤ :=
  ⌈imp.carbonEmissions⌉

/-- `getCertificateDeficit()`:
`Math.max(0, required - (this.carbonCertificates || 0))`. -/
def getCertificateDeficit (imp : CbamImport) : ℚ :=
  let required := calculateCertificatesRequired imp
  let held := jsNumOr imp.carbonCertificates 0
  max 0 ((required : ℚ) - held)

/-- JavaScript `Math.abs` on an exact rational. -/
def mathAbs (q : ℚ) : ℚ :=
  if q < 0 then -q else q

/-- The `pre-validate` hook of `CbamImportSchema`: when the stored
`totalValue` differs from `quantity * unitValue` by more than the tolerance
`0.01`, it is overwritten with that product; otherwise it is left alone. -/
def validateHook (imp : CbamImport) : CbamImport :=
  let expectedTotal := imp.quantity * imp.unitValue
  if mathAbs (imp.totalValue - expectedTotal) > mkRat 1 100 then
    { imp with totalValue := expectedTotal }
  else imp

/-- A product reference-data record; the import-creation route only reads its
identity and `isActive` flag. -/
structure Product where
  id : ℕ
  isActive : Bool
deriving DecidableEq, Repr

/-- One declaration together with its owned import lines: the slice of the
persistent store the per-declaration route handlers read and write. -/
structure DeclState where
  decl : Declaration
  imports : List CbamImport
deriving DecidableEq, Repr

/-- The request body of POST `/api/declarations/[id]/imports` before zod
parsing.  `createImportSchema` has no `totalValue` key, so a client-supplied
`totalValue` is stripped by `parse`; it is carried here to show it is
ignored. -/
structure RawImportForm where
  productId : ℕ
  supplierName : String
  supplierCountry : String
  quantity : ℚ
  unitValue : ℚ
  carbonEmissions : ℚ
  carbonCertificates : Option ℚ
  notes : Option String
  totalValue : Option ℚ
deriving DecidableEq, Repr

/-- The field bounds `createImportSchema` checks via zod
(`min`/`max` on each key; string lengths in characters). -/
def createImportValid (f : RawImportForm) : Prop :=
  1 ≤ f.supplierName.length ∧ f.supplierName.length ≤ 200 ∧
  1 ≤ f.supplierCountry.length ∧ f.supplierCountry.length ≤ 100 ∧
  mkRat 1 1000 ≤ f.quantity ∧ f.quantity ≤ 1000000 ∧
  mkRat 1 100 ≤ f.unitValue ∧ f.unitValue ≤ 1000000 ∧
  0 ≤ f.carbonEmissions ∧ f.carbonEmissions ≤ 1000000 ∧
  (∀ c ∈ f.carbonCertificates, 0 ≤ c ∧ c ≤ 1000000) ∧
  (∀ n ∈ f.notes, n.length ≤ 1000)

instance (f : RawImportForm) : Decidable (createImportValid f) := by
  unfold createImportValid; infer_instance

/-- POST `/api/declarations/[id]/imports`: after the ownership lookup, checks
`canBeEdited()` first, then parses the body, then the product lookup and
`isActive` check; on success computes `totalValue = quantity * unitValue`,
builds the new import (status `pending`), saves it (running the
`pre-validate` hook) and recomputes the declaration summary. -/
def createImportRoute (st : DeclState) (f : RawImportForm) (product : Option Product)
    (newId : ℕ) : Except CbamError DeclState :=
  if ! canBeEdited st.decl then .error .declarationNotEditable
  else if createImportValid f then
    match product with
    | none => .error .productNotFound
    | some p =>
      if ! p.isActive then .error .productNotFound
      else
        let totalValue := f.quantity * f.unitValue
        let newImport : CbamImport :=
          { id := newId
            productId := p.id
            supplierName := f.supplierName
            supplierCountry := f.supplierCountry
            quantity := f.quantity
            unitValue := f.unitValue
            totalValue := totalValue
            carbonEmissions := f.carbonEmissions
            carbonCertificates := f.carbonCertificates
            status := .pending
            notes := f.notes }
        let imports := st.imports ++ [validateHook newImport]
        .ok ⟨updateSummary st.decl imports, imports⟩
  else .error (.validationError "import")

/-- The request body of PUT `/api/declarations/[id]/imports/[importId]`:
`updateImportSchema`, every field optional, no `totalValue` key. -/
structure UpdateImportForm where
  supplierName : Option String := none
  supplierCountry : Option String := none
  quantity : Option ℚ := none
  unitValue : Option ℚ := none
  carbonEmissions : Option ℚ := none
  carbonCertificates : Option ℚ := none
  notes : Option String := none
  status : Option ImportStatus := none
deriving DecidableEq, Repr

/-- The field bounds `updateImportSchema` checks on the fields present. -/
def updateImportValid (u : UpdateImportForm) : Prop :=
  (∀ v ∈ u.supplierName, 1 ≤ v.length ∧ v.length ≤ 200) ∧
  (∀ v ∈ u.supplierCountry, 1 ≤ v.length ∧ v.length ≤ 100) ∧
  (∀ v ∈ u.quantity, mkRat 1 1000 ≤ v ∧ v ≤ 1000000) ∧
  (∀ v ∈ u.unitValue, mkRat 1 100 ≤ v ∧ v ≤ 1000000) ∧
  (∀ v ∈ u.carbonEmissions, 0 ≤ v ∧ v ≤ 1000000) ∧
  (∀ v ∈ u.carbonCertificates, 0 ≤ v ∧ v ≤ 1000000) ∧
  (∀ v ∈ u.notes, v.length ≤ 1000)

instance (u : UpdateImportForm) : Decidable (updateImportValid u) := by
  unfold updateImportValid; infer_instance

/-- The field-copy loop of the import PUT handler (`Object.keys(validatedData)
.forEach(...)`) followed by its `totalValue` recomputation: when `quantity` or
`unitValue` is part of the update, `totalValue` is set to the product of the
post-update `quantity` and `unitValue`. -/
def applyImportUpdate (imp : CbamImport) (u : UpdateImportForm) : CbamImport :=
  let i1 := match u.supplierName with
    | some v => { imp with supplierName := v } | none => imp
  let i2 := match u.supplierCountry with
    | some v => { i1 with supplierCountry := v } | none => i1
  let i3 := match u.quantity with
    | some v => { i2 with quantity := v } | none => i2
  let i4 := match u.unitValue with
    | some v => { i3 with unitValue := v } | none => i3
  let i5 := match u.carbonEmissions with
    | some v => { i4 with carbonEmissions := v } | none => i4
  let i6 := match u.carbonCertificates with
    | some v => { i5 with carbonCertificates := some v } | none => i5
  let i7 := match u.notes with
    | some v => { i6 with notes := some v } | none => i6
  let i8 := match u.status with
    | some v => { i7 with status := v } | none => i7
  if u.quantity.isSome || u.unitValue.isSome then
    { i8 with totalValue := i8.quantity * i8.unitValue }
  else i8

/-- PUT `/api/declarations/[id]/imports/[importId]`: after the ownership
lookup, checks `canBeEdited()` first, then finds the import line, parses the
body, applies the update, saves (running the `pre-validate` hook) and
recomputes the declaration summary. -/
def updateImportRoute (st : DeclState) (importId : ℕ) (u : UpdateImportForm) :
    Except CbamError DeclState :=
  if ! canBeEdited st.decl then .error .declarationNotEditable
  else match st.imports.find? (fun i => i.id == importId) with
    | none => .error .notFound
    | some imp =>
      if updateImportValid u then
        let updated := validateHook (applyImportUpdate imp u)
        let imports := st.imports.map (fun i => if i.id == importId then updated else i)
        .ok ⟨updateSummary st.decl imports, imports⟩
      else .error (.validationError "import")

/-- DELETE `/api/declarations/[id]/imports/[importId]`: after the ownership
lookup, checks `canBeEdited()` first, then finds the import line, deletes it
and recomputes the declaration summary. -/
def deleteImportRoute (st : DeclState) (importId : ℕ) : Except CbamError DeclState :=
  if ! canBeEdited st.decl then .error .declarationNotEditable
  else match st.imports.find? (fun i => i.id == importId) with
    | none => .error .notFound
    | some _ =>
      let imports := st.imports.filter (fun i => ! (i.id == importId))
      .ok ⟨updateSummary st.decl imports, imports⟩

/-- DELETE `/api/declarations/[id]`: checks `canBeEdited()` first, then
cascade-deletes the import lines and the declaration itself. -/
def deleteDeclarationRoute (st : DeclState) : Except CbamError Unit :=
  if ! canBeEdited st.decl then .error .declarationNotEditable
  else .ok ()

/-- The `notes` field update of the declaration PUT handler: a present value
overwrites the field, an absent one leaves the declaration alone. -/
def applyNotes (d : Declaration) (notes : Option String) : Declaration :=
  match notes with
  | some n => { d with notes := some n }
  | none => d

/-- The status `switch` of the declaration PUT handler, run after the notes
update: on a requested status differing from the current one it grants
exactly two transitions — to `submitted` via the guarded `submit()` method,
and `rejected` back to `draft` (clearing `rejectedAt` and
`rejectionReason`) — and every other requested status hits the `default`
arm and is refused. -/
def putStatusStep (st : DeclState) (reqStatus : Option DeclarationStatus)
    (now : ℕ) : Except CbamError DeclState :=
  match reqStatus with
  | some s =>
    if s ≠ st.decl.status then
      match s with
      | .submitted =>
        if ! canBeSubmitted st.decl then .error .cannotSubmit
        else match submit st.decl now with
          | .ok d2 => .ok ⟨d2, st.imports⟩
          | .error e => .error e
      | .draft =>
        if st.decl.status = .rejected then
          .ok ⟨{ st.decl with status := .draft, rejectedAt := none,
                              rejectionReason := none }, st.imports⟩
        else .error .invalidTransition
      | _ => .error .invalidTransition
    else .ok st
  | none => .ok st

/-- PUT `/api/declarations/[id]`: checks `canBeEdited()` before parsing the
body, then applies the `notes` update and the status switch. -/
def putDeclarationRoute (st : DeclState) (notes : Option String)
    (reqStatus : Option DeclarationStatus) (now : ℕ) : Except CbamError DeclState :=
  if ! canBeEdited st.decl then .error .declarationNotEditable
  else if ∀ n ∈ notes, n.length ≤ 2000 then
    putStatusStep ⟨applyNotes st.decl notes, st.imports⟩ reqStatus now
  else .error (.validationError "notes")

/-- POST `/api/declarations`: zod-validates the period (quarter 1..4, year
2023..current year + 1), rejects a duplicate (user, year, quarter), and
otherwise appends a fresh declaration in status `draft` with the all-zero
summary and the deadline computed from the period. -/
def createDeclarationRoute (db : List Declaration) (userId : ℕ) (currentYear : ℤ)
    (quarter : ℕ) (year : ℤ) (newId : ℕ) : Except CbamError (List Declaration) :=
  if 1 ≤ quarter ∧ quarter ≤ 4 ∧ 2023 ≤ year ∧ year ≤ currentYear + 1 then
    if db.any (fun d => d.userId == userId &&
        d.reportingPeriod.year == year && d.reportingPeriod.quarter == quarter) then
      .error .duplicatePeriod
    else match calculateDeadline year quarter with
      | none => .error .invalidPeriod
      | some dl =>
        .ok (db ++ [{ id := newId
                      userId := userId
                      reportingPeriod := ⟨quarter, year⟩
                      status := .draft
                      summary := zeroSummary
                      deadlineDate := dl }])
  else .error (.validationError "period")

/-- One HTTP operation against a single declaration, as exposed by the public
per-declaration routes. -/
inductive ApiOp where
  | putDeclaration (notes : Option String) (status : Option DeclarationStatus) (now : ℕ)
  | createImport (f : RawImportForm) (product : Option Product) (newId : ℕ)
  | updateImport (importId : ℕ) (u : UpdateImportForm)
  | deleteImport (importId : ℕ)
  | deleteDeclaration

/-- Dispatch of one API operation on the declaration slice of the store;
`some` of the new slice on success, `none` when the declaration was deleted. -/
def apiStep (st : DeclState) (op : ApiOp) : Except CbamError (Option DeclState) :=
  match op with
  | .putDeclaration notes status now => (putDeclarationRoute st notes status now).map some
  | .createImport f product newId => (createImportRoute st f product newId).map some
  | .updateImport importId u => (updateImportRoute st importId u).map some
  | .deleteImport importId => (deleteImportRoute st importId).map some
  | .deleteDeclaration => (deleteDeclarationRoute st).map (fun _ => none)

/-- Run a sequence of API operations: a failing operation leaves the store
untouched (the handler returned an error response before any write), a
successful deletion ends the history of the declaration. -/
def runOps (ops : List ApiOp) (st : DeclState) : Option DeclState :=
  match ops with
  | [] => some st
  | op :: rest =>
    match apiStep st op with
    | .ok (some st2) => runOps rest st2
    | .ok none => none
    | .error _ => runOps rest st

/-! ## Concrete sample data for witnesses -/

/-- A concrete import line: 10 tonnes at 100 per tonne, 5 tCO2e. -/
def sampleImport : CbamImport :=
  { id := 1
    productId := 1
    supplierName := "Acme Steel"
    supplierCountry := "CN"
    quantity := 10
    unitValue := 100
    totalValue := 1000
    carbonEmissions := 5
    carbonCertificates := none
    status := .pending
    notes := none }

/-- A freshly created draft declaration for Q2 2024 with the zero summary. -/
def draftEmptyDecl : Declaration :=
  { id := 1
    userId := 1
    reportingPeriod := ⟨2, 2024⟩
    status := .draft
    summary := zeroSummary
    deadlineDate := ⟨2024, 8, 31⟩ }

/-- The draft declaration after `sampleImport` was attached and the summary
recomputed. -/
def draftOneLineDecl : Declaration :=
  { draftEmptyDecl with summary := computeSummary [sampleImport] }

/-- The one-line declaration after submission at clock value 3. -/
def submittedDecl : Declaration :=
  { draftOneLineDecl with status := .submitted, submittedAt := some 3 }

/-- Store slice of the submitted declaration with its one import line. -/
def submittedState : DeclState := ⟨submittedDecl, [sampleImport]⟩

/-- An active product record. -/
def sampleProduct : Product := ⟨1, true⟩

/-- A valid creation request body carrying a bogus client-supplied
`totalValue` (stripped by the zod schema). -/
def sampleRawForm : RawImportForm :=
  { productId := 1
    supplierName := "Acme Steel"
    supplierCountry := "CN"
    quantity := 10
    unitValue := 100
    carbonEmissions := 5
    carbonCertificates := none
    notes := none
    totalValue := some 99999 }

/-- An import line whose stored `totalValue` drifted from
`quantity * unitValue` by more than the 0.01 tolerance. -/
def driftedImport : CbamImport :=
  { sampleImport with totalValue := 500 }

/-- A draft declaration of user 1 for Q1 2024. -/
def q1Decl : Declaration :=
  { draftEmptyDecl with reportingPeriod := ⟨1, 2024⟩, deadlineDate := ⟨2024, 5, 31⟩ }

/-- Store slice of the empty draft declaration, the starting point of the
creation flows. -/
def draftState7 : DeclState := ⟨draftEmptyDecl, []⟩

/-- The operation sequence of the witness run: attach one import line, then
submit the declaration. -/
def c10Ops : List ApiOp :=
  [.createImport sampleRawForm (some sampleProduct) 1,
   .putDeclaration none (some .submitted) 3]

/-! ## Helper lemmas -/

/-- A left fold accumulating `f` over a list equals the accumulator plus the
sum of the mapped list: the `reduce((sum, imp) => sum + f(imp), 0)` pattern of
`updateSummary` computes a Σ. -/
theorem foldl_add_map {α : Type} (f : α → ℚ) (l : List α) (a : ℚ) :
    l.foldl (fun sum x => sum + f x) a = a + (l.map f).sum := by
  induction l generalizing a with
  | nil => simp
  | cons x xs ih => simp [ih, add_assoc]

/-- The kernel-computable tolerance constant of the validation hook is the
rational 0.01. -/
theorem tolerance_eq : (mkRat 1 100 : ℚ) = 1 / 100 := by
  rw [Rat.mkRat_eq_div]; norm_num

/-- The `Math.abs` embedding agrees with the mathematical absolute value. -/
theorem mathAbs_eq_abs (q : ℚ) : mathAbs q = |q| := by
  by_cases hq : q < 0
  · rw [mathAbs, if_pos hq, abs_of_neg hq]
  · rw [mathAbs, if_neg hq, abs_of_nonneg (le_of_not_lt hq)]

/-- With default `0`, JavaScript `x || 0` on an optional number agrees with
`Option.getD 0`: a present `0` is falsy but the default is `0` as well. -/
theorem jsNumOr_zero (o : Option ℚ) : jsNumOr o 0 = o.getD 0 := by
  cases o with
  | none => rfl
  | some x =>
    simp only [jsNumOr, Option.getD_some]
    split <;> simp_all

/-- A successful `submit()` always lands in status submitted. -/
theorem submit_ok_status {d : Declaration} {now : ℕ} {d2 : Declaration}
    (h : submit d now = .ok d2) : d2.status = .submitted := by
  unfold submit at h
  split at h
  · exact absurd h (by simp)
  · injection h with h
    subst h
    rfl

/-- The import-creation route never changes the declaration status. -/
theorem createImportRoute_status {st : DeclState} {f : RawImportForm}
    {product : Option Product} {newId : ℕ} {st2 : DeclState}
    (h : createImportRoute st f product newId = .ok st2) :
    st2.decl.status = st.decl.status := by
  unfold createImportRoute at h
  split at h
  · exact absurd h (by simp)
  · split at h
    · split at h
      · exact absurd h (by simp)
      · split at h
        · exact absurd h (by simp)
        · injection h with h
          subst h
          rfl
    · exact absurd h (by simp)

/-- The import-update route never changes the declaration status. -/
theorem updateImportRoute_status {st : DeclState} {importId : ℕ}
    {u : UpdateImportForm} {st2 : DeclState}
    (h : updateImportRoute st importId u = .ok st2) :
    st2.decl.status = st.decl.status := by
  unfold updateImportRoute at h
  split at h
  · exact absurd h (by simp)
  · split at h
    · exact absurd h (by simp)
    · split at h
      · injection h with h
        subst h
        rfl
      · exact absurd h (by simp)

/-- The import-deletion route never changes the declaration status. -/
theorem deleteImportRoute_status {st : DeclState} {importId : ℕ} {st2 : DeclState}
    (h : deleteImportRoute st importId = .ok st2) :
    st2.decl.status = st.decl.status := by
  unfold deleteImportRoute at h
  split at h
  · exact absurd h (by simp)
  · split at h
    · exact absurd h (by simp)
    · injection h with h
      subst h
      rfl

/-- The notes update leaves the status unchanged. -/
theorem applyNotes_status (d : Declaration) (notes : Option String) :
    (applyNotes d notes).status = d.status := by
  cases notes <;> rfl

/-- A successful status switch leaves the status unchanged, or was the submit
transition, or was the rejected-to-draft restore. -/
theorem putStatusStep_ok_status {st : DeclState}
    {reqStatus : Option DeclarationStatus} {now : ℕ} {st2 : DeclState}
    (h : putStatusStep st reqStatus now = .ok st2) :
    st2.decl.status = st.decl.status ∨ st2.decl.status = .submitted
    ∨ st2.decl.status = .draft := by
  unfold putStatusStep at h
  split at h
  · -- a status was requested
    split at h
    · -- it differs from the current one
      split at h
      · -- submitted: the submit() path
        split at h
        · exact absurd h (by simp)
        · split at h
          · rename_i d2 hsub
            injection h with h
            subst h
            exact Or.inr (Or.inl (submit_ok_status hsub))
          · exact absurd h (by simp)
      · -- draft: the rejected-to-draft restore
        split at h
        · injection h with h
          subst h
          exact Or.inr (Or.inr rfl)
        · exact absurd h (by simp)
      · exact absurd h (by simp)
    · -- same status requested: no transition
      injection h with h
      subst h
      exact Or.inl rfl
  · -- no status requested
    injection h with h
    subst h
    exact Or.inl rfl

/-- A successful declaration PUT leaves the status unchanged, or was the
submit transition, or was the rejected-to-draft restore. -/
theorem putDeclarationRoute_ok_status {st : DeclState} {notes : Option String}
    {reqStatus : Option DeclarationStatus} {now : ℕ} {st2 : DeclState}
    (h : putDeclarationRoute st notes reqStatus now = .ok st2) :
    st2.decl.status = st.decl.status ∨ st2.decl.status = .submitted
    ∨ st2.decl.status = .draft := by
  unfold putDeclarationRoute at h
  split at h
  · exact absurd h (by simp)
  · split at h
    · rcases putStatusStep_ok_status h with h1 | h1 | h1
      · exact Or.inl (h1.trans (applyNotes_status st.decl notes))
      · exact Or.inr (Or.inl h1)
      · exact Or.inr (Or.inr h1)
    · exact absurd h (by simp)

/-- One successful API step preserves membership of the status in
{draft, submitted}. -/
theorem apiStep_status {st : DeclState} {op : ApiOp} {st2 : DeclState}
    (hinv : st.decl.status = .draft ∨ st.decl.status = .submitted)
    (h : apiStep st op = .ok (some st2)) :
    st2.decl.status = .draft ∨ st2.decl.status = .submitted := by
  cases op with
  | putDeclaration notes status now =>
    simp only [apiStep] at h
    cases hp : putDeclarationRoute st notes status now with
    | error e => rw [hp] at h; exact absurd h (by simp [Except.map])
    | ok x =>
      rw [hp] at h
      simp only [Except.map] at h
      injection h with h
      injection h with h
      subst h
      rcases putDeclarationRoute_ok_status hp with h1 | h1 | h1
      · rw [h1]; exact hinv
      · exact Or.inr h1
      · exact Or.inl h1
  | createImport f product newId =>
    simp only [apiStep] at h
    cases hp : createImportRoute st f product newId with
    | error e => rw [hp] at h; exact absurd h (by simp [Except.map])
    | ok x =>
      rw [hp] at h
      simp only [Except.map] at h
      injection h with h
      injection h with h
      subst h
      rw [createImportRoute_status hp]
      exact hinv
  | updateImport importId u =>
    simp only [apiStep] at h
    cases hp : updateImportRoute st importId u with
    | error e => rw [hp] at h; exact absurd h (by simp [Except.map])
    | ok x =>
      rw [hp] at h
      simp only [Except.map] at h
      injection h with h
      injection h with h
      subst h
      rw [updateImportRoute_status hp]
      exact hinv
  | deleteImport importId =>
    simp only [apiStep] at h
    cases hp : deleteImportRoute st importId with
    | error e => rw [hp] at h; exact absurd h (by simp [Except.map])
    | ok x =>
      rw [hp] at h
      simp only [Except.map] at h
      injection h with h
      injection h with h
      subst h
      rw [deleteImportRoute_status hp]
      exact hinv
  | deleteDeclaration =>
    simp only [apiStep] at h
    cases hp : deleteDeclarationRoute st with
    | error e => rw [hp] at h; exact absurd h (by simp [Except.map])
    | ok u => rw [hp] at h; simp [Except.map] at h

/-- Running any sequence of API operations preserves membership of the status
in {draft, submitted}. -/
theorem runOps_status (ops : List ApiOp) :
    ∀ st st2 : DeclState,
      (st.decl.status = .draft ∨ st.decl.status = .submitted) →
      runOps ops st = some st2 →
      (st2.decl.status = .draft ∨ st2.decl.status = .submitted) := by
  induction ops with
  | nil =>
    intro st st2 hinv h
    unfold runOps at h
    injection h with h
    subst h
    exact hinv
  | cons op rest ih =>
    intro st st2 hinv h
    unfold runOps at h
    cases ha : apiStep st op with
    | ok o =>
      cases o with
      | some st3 =>
        rw [ha] at h
        exact ih st3 st2 (apiStep_status hinv ha) h
      | none =>
        rw [ha] at h
        simp at h
    | error e =>
      rw [ha] at h
      exact ih st st2 hinv h

/-! ## The claims -/

/-- C1: for every declaration with N attached import lines, `updateSummary`
sets `totalImports = N`, `totalQuantity` = Σ quantity, `totalValue` = Σ of
the `totalValue` of the lines, `totalEmissions` = Σ `carbonEmissions`,
`totalCertificatesRequired` = Σ of the raw `carbonEmissions` (no per-line
ceiling), and `totalCertificatesHeld` = Σ `carbonCertificates` with a missing
value counted as 0. -/
theorem updateSummary_spec (d : Declaration) (imports : List CbamImport) :
    (updateSummary d imports).summary.totalImports = imports.length
    ∧ (updateSummary d imports).summary.totalQuantity
      = (imports.map (fun i => i.quantity)).sum
    ∧ (updateSummary d imports).summary.totalValue
      = (imports.map (fun i => i.totalValue)).sum
    ∧ (updateSummary d imports).summary.totalEmissions
      = (imports.map (fun i => i.carbonEmissions)).sum
    ∧ (updateSummary d imports).summary.totalCertificatesRequired
      = (imports.map (fun i => i.carbonEmissions)).sum
    ∧ (updateSummary d imports).summary.totalCertificatesHeld
      = (imports.map (fun i => i.carbonCertificates.getD 0)).sum := by
  refine ⟨rfl, ?_, ?_, ?_, ?_, ?_⟩ <;>
    simp [updateSummary, computeSummary, foldl_add_map, jsNumOr_zero]

/-- C2: for every year ≥ 2023 the deadline calculator maps quarter 1 to
May 31 of the year, quarter 2 to August 31, quarter 3 to November 30, and
quarter 4 to February 28 of the following year, with no leap-year
adjustment. -/
theorem calculateDeadline_spec (year : ℤ) (hy : 2023 ≤ year) :
    calculateDeadline year 1 = some ⟨year, 5, 31⟩
    ∧ calculateDeadline year 2 = some ⟨year, 8, 31⟩
    ∧ calculateDeadline year 3 = some ⟨year, 11, 30⟩
    ∧ calculateDeadline year 4 = some ⟨year + 1, 2, 28⟩ := by
  refine ⟨rfl, rfl, rfl, ?_⟩
  cases h : isLeapYear (year + 1) <;>
    simp [calculateDeadline, jsDate, daysInMonth, h]

/-- Witness for C2 at year 2024: the deadlines of the four quarters of 2024,
with Deadline(2024, 1) = 2024-05-31 and Deadline(2024, 4) = 2025-02-28. -/
theorem calculateDeadline_spec_witness :
    (2023 : ℤ) ≤ 2024 ∧
    (calculateDeadline 2024 1 = some ⟨2024, 5, 31⟩
     ∧ calculateDeadline 2024 2 = some ⟨2024, 8, 31⟩
     ∧ calculateDeadline 2024 3 = some ⟨2024, 11, 30⟩
     ∧ calculateDeadline 2024 4 = some ⟨2024 + 1, 2, 28⟩) :=
  ⟨by decide, calculateDeadline_spec 2024 (by decide)⟩

/-- C8: the derived certificates-required of an import line equals the
ceiling of its `carbonEmissions`, and the certificate deficit equals
max(0, ceiling(carbonEmissions) − held) with an absent `carbonCertificates`
treated as 0.  Neither value is a stored field of the line. -/
theorem certificates_spec (imp : CbamImport) :
    calculateCertificatesRequired imp = ⌈imp.carbonEmissions⌉
    ∧ getCertificateDeficit imp
      = max 0 ((⌈imp.carbonEmissions⌉ : ℚ) - imp.carbonCertificates.getD 0) := by
  refine ⟨rfl, ?_⟩
  simp [getCertificateDeficit, calculateCertificatesRequired, jsNumOr_zero]

/-- C9: `updateSummary` is idempotent — run twice against the same import-line
set it produces the same declaration as run once. -/
theorem updateSummary_idempotent (d : Declaration) (imports : List CbamImport) :
    updateSummary (updateSummary d imports) imports = updateSummary d imports := rfl

/-- C3: on a declaration whose summary agrees with its import lines,
`submit()` succeeds exactly when the status is draft and
`summary.totalImports > 0`; a draft with no lines always fails with
CannotSubmit, a draft with at least one line always succeeds and sets
status = submitted with a non-null `submittedAt`, and any status other than
draft always fails. -/
theorem submit_spec (d : Declaration) (lines : List CbamImport) (now : ℕ)
    (hsum : d.summary = computeSummary lines) :
    ((∃ d2, submit d now = .ok d2)
      ↔ (d.status = .draft ∧ 0 < d.summary.totalImports))
    ∧ (d.status = .draft → lines = [] → submit d now = .error .cannotSubmit)
    ∧ (d.status = .draft → lines ≠ [] →
        submit d now = .ok { d with status := .submitted, submittedAt := some now })
    ∧ (d.status ≠ .draft → submit d now = .error .cannotSubmit) := by
  have hlen : d.summary.totalImports = lines.length := by rw [hsum]; rfl
  have hcbs : canBeSubmitted d = true ↔ (d.status = .draft ∧ 0 < d.summary.totalImports) := by
    simp [canBeSubmitted]
  refine ⟨?_, ?_, ?_, ?_⟩
  · rw [← hcbs]
    cases hc : canBeSubmitted d <;> simp [submit, hc]
  · intro _ hnil
    have h0 : d.summary.totalImports = 0 := by rw [hlen, hnil]; rfl
    have hc : canBeSubmitted d = false := by simp [canBeSubmitted, h0]
    simp [submit, hc]
  · intro hd hne
    have hpos : 0 < d.summary.totalImports := by
      rw [hlen]; exact List.length_pos.mpr hne
    have hc : canBeSubmitted d = true := hcbs.mpr ⟨hd, hpos⟩
    simp [submit, hc]
  · intro hd
    have hc : canBeSubmitted d = false := by simp [canBeSubmitted, hd]
    simp [submit, hc]

/-- Witness for C3: the one-line draft declaration submits successfully at
clock value 3, and the empty draft declaration fails with CannotSubmit. -/
theorem submit_spec_witness :
    (draftOneLineDecl.summary = computeSummary [sampleImport]
      ∧ submit draftOneLineDecl 3
        = .ok { draftOneLineDecl with status := .submitted, submittedAt := some 3 })
    ∧ (draftEmptyDecl.summary = computeSummary []
      ∧ submit draftEmptyDecl 3 = .error .cannotSubmit) := by
  refine ⟨⟨rfl, ?_⟩, ⟨rfl, ?_⟩⟩
  · exact (submit_spec draftOneLineDecl [sampleImport] 3 rfl).2.2.1 rfl (by simp)
  · exact (submit_spec draftEmptyDecl [] 3 rfl).2.1 rfl rfl

/-- C5 counterexample: `reject` does not require a non-empty reason — on a
submitted declaration, rejecting with the empty string succeeds and stores
the empty reason. -/
theorem reject_empty_reason_accepted :
    reject submittedDecl "" 5
      = .ok { submittedDecl with
              status := .rejected
              rejectedAt := some 5
              rejectionReason := some "" } := rfl

/-- C5 (amended): `validate()` and `reject(reason)` invoked on a declaration
whose status is anything other than submitted always fail with
InvalidTransition and leave the declaration unchanged; `reject(reason)` does
not require a non-empty reason: on a submitted declaration it succeeds for
every reason — including the empty string — whose trimmed form is within
the 1000-character schema maximum, setting status = rejected, `rejectedAt`,
and storing the trimmed reason, and its save fails with a validation error
when the trimmed reason exceeds 1000 characters; `validate()` on a submitted
declaration succeeds setting status = validated and `validatedAt`. -/
theorem validate_reject_spec (d : Declaration) (reason : String) (now : ℕ) :
    (d.status ≠ .submitted →
      validateDeclaration d now = .error .invalidTransition
      ∧ reject d reason now = .error .invalidTransition)
    ∧ (d.status = .submitted →
      validateDeclaration d now
        = .ok { d with status := .validated, validatedAt := some now }
      ∧ ((jsTrim reason).length ≤ 1000 →
          reject d reason now
            = .ok { d with
                    status := .rejected
                    rejectedAt := some now
                    rejectionReason := some (jsTrim reason) })
      ∧ (1000 < (jsTrim reason).length →
          reject d reason now = .error (.validationError "rejectionReason"))) := by
  refine ⟨fun h => ?_, fun h => ?_⟩
  · have hb : (d.status != DeclarationStatus.submitted) = true := by simp [h]
    exact ⟨by simp [validateDeclaration, hb], by simp [reject, hb]⟩
  · have hb : (d.status != DeclarationStatus.submitted) = false := by simp [h]
    refine ⟨by simp [validateDeclaration, hb], fun hlen => ?_, fun hlen => ?_⟩
    · simp [reject, hb, not_lt.mpr hlen]
    · simp [reject, hb, hlen]

/-- Witness for C5 (amended): a draft declaration can be neither validated
nor rejected, a submitted one can be validated, and rejected with a short
reason that is stored as given. -/
theorem validate_reject_spec_witness :
    (draftOneLineDecl.status ≠ .submitted
      ∧ validateDeclaration draftOneLineDecl 4 = .error .invalidTransition
      ∧ reject draftOneLineDecl "missing invoice" 4 = .error .invalidTransition)
    ∧ (submittedDecl.status = .submitted
      ∧ validateDeclaration submittedDecl 4
        = .ok { submittedDecl with status := .validated, validatedAt := some 4 }
      ∧ (jsTrim "missing invoice").length ≤ 1000
      ∧ reject submittedDecl "missing invoice" 4
        = .ok { submittedDecl with
                status := .rejected
                rejectedAt := some 4
                rejectionReason := some "missing invoice" }) := by
  have h1 := (validate_reject_spec draftOneLineDecl "missing invoice" 4).1 (by simp [draftOneLineDecl, draftEmptyDecl])
  have h2 := (validate_reject_spec submittedDecl "missing invoice" 4).2 rfl
  exact ⟨⟨by simp [draftOneLineDecl, draftEmptyDecl], h1.1, h1.2⟩,
         ⟨rfl, h2.1, by decide, h2.2.1 (by decide)⟩⟩

/-- C4: every mutating operation on a declaration whose status is submitted
or validated — creating, updating or deleting an import line, and deleting
the declaration — fails with DeclarationNotEditable before any write,
whatever the rest of the request is, so the declaration and its import lines
are untouched. -/
theorem notEditable_mutations (st : DeclState)
    (h : st.decl.status = .submitted ∨ st.decl.status = .validated) :
    (∀ f product newId,
      createImportRoute st f product newId = .error .declarationNotEditable)
    ∧ (∀ importId u,
      updateImportRoute st importId u = .error .declarationNotEditable)
    ∧ (∀ importId,
      deleteImportRoute st importId = .error .declarationNotEditable)
    ∧ deleteDeclarationRoute st = .error .declarationNotEditable := by
  have hb : canBeEdited st.decl = false := by
    rcases h with h | h <;> simp [canBeEdited, h]
  exact ⟨fun f product newId => by simp [createImportRoute, hb],
         fun importId u => by simp [updateImportRoute, hb],
         fun importId => by simp [deleteImportRoute, hb],
         by simp [deleteDeclarationRoute, hb]⟩

/-- C6: creating a declaration for a (user, year, quarter) for which one
already exists always fails with DuplicatePeriod and adds nothing to the
store; creating one for a free valid period always succeeds, appending a
declaration in status draft with the all-zero summary and the deadline
computed from the period. -/
theorem createDeclaration_spec (db : List Declaration) (userId : ℕ)
    (currentYear : ℤ) (quarter : ℕ) (year : ℤ) (newId : ℕ)
    (hq1 : 1 ≤ quarter) (hq4 : quarter ≤ 4)
    (hy1 : 2023 ≤ year) (hy2 : year ≤ currentYear + 1) :
    ((∃ d ∈ db, d.userId = userId ∧ d.reportingPeriod.year = year
        ∧ d.reportingPeriod.quarter = quarter) →
      createDeclarationRoute db userId currentYear quarter year newId
        = .error .duplicatePeriod)
    ∧ ((¬ ∃ d ∈ db, d.userId = userId ∧ d.reportingPeriod.year = year
        ∧ d.reportingPeriod.quarter = quarter) →
      ∃ dl, calculateDeadline year quarter = some dl
        ∧ createDeclarationRoute db userId currentYear quarter year newId
          = .ok (db ++ [{ id := newId
                          userId := userId
                          reportingPeriod := ⟨quarter, year⟩
                          status := .draft
                          summary := zeroSummary
                          deadlineDate := dl }])) := by
  have hvalid : 1 ≤ quarter ∧ quarter ≤ 4 ∧ 2023 ≤ year ∧ year ≤ currentYear + 1 :=
    ⟨hq1, hq4, hy1, hy2⟩
  have hany : (db.any fun d => d.userId == userId &&
      d.reportingPeriod.year == year && d.reportingPeriod.quarter == quarter) = true
      ↔ ∃ d ∈ db, d.userId = userId ∧ d.reportingPeriod.year = year
          ∧ d.reportingPeriod.quarter = quarter := by
    simp [List.any_eq_true, and_assoc]
  constructor
  · intro hex
    unfold createDeclarationRoute
    rw [if_pos hvalid, if_pos (hany.mpr hex)]
  · intro hnex
    have hfalse : (db.any fun d => d.userId == userId &&
        d.reportingPeriod.year == year && d.reportingPeriod.quarter == quarter) = false := by
      cases hb : (db.any fun d => d.userId == userId &&
          d.reportingPeriod.year == year && d.reportingPeriod.quarter == quarter) with
      | false => rfl
      | true => exact absurd (hany.mp hb) hnex
    unfold createDeclarationRoute
    rw [if_pos hvalid, if_neg (by simp [hfalse])]
    interval_cases quarter <;> exact ⟨_, rfl, rfl⟩

/-- Witness for C6: with one declaration for user 1, Q1 2024 in the store,
creating a second one for the same period fails with DuplicatePeriod; on an
empty store the creation succeeds as a zero-summary draft with the Q1
deadline 2024-05-31. -/
theorem createDeclaration_spec_witness :
    createDeclarationRoute [q1Decl] 1 2024 1 2024 9 = .error .duplicatePeriod
    ∧ ∃ dl, calculateDeadline 2024 1 = some dl
        ∧ createDeclarationRoute [] 1 2024 1 2024 9
          = .ok [{ id := 9
                   userId := 1
                   reportingPeriod := ⟨1, 2024⟩
                   status := .draft
                   summary := zeroSummary
                   deadlineDate := dl }] := by
  constructor
  · exact (createDeclaration_spec [q1Decl] 1 2024 1 2024 9
      (by decide) (by decide) (by decide) (by decide)).1
      ⟨q1Decl, by simp, rfl, rfl, rfl⟩
  · simpa using (createDeclaration_spec [] 1 2024 1 2024 9
      (by decide) (by decide) (by decide) (by decide)).2 (by simp)

/-- C7: the stored `totalValue` of a created import line equals
quantity × unitValue and a client-supplied `totalValue` is ignored; the
update handler recomputes `totalValue` whenever `quantity` or `unitValue`
is part of the update; and the validation hook corrects `totalValue` to
quantity × unitValue whenever it differs from that product by more than
0.01. -/
theorem totalValue_spec :
    (∀ st f product newId st2,
      createImportRoute st f product newId = .ok st2 →
      ∃ line, st2.imports = st.imports ++ [line]
        ∧ line.totalValue = f.quantity * f.unitValue)
    ∧ (∀ st f v product newId,
      createImportRoute st { f with totalValue := v } product newId
        = createImportRoute st f product newId)
    ∧ (∀ imp u, u.quantity.isSome = true ∨ u.unitValue.isSome = true →
      (applyImportUpdate imp u).totalValue
        = (applyImportUpdate imp u).quantity * (applyImportUpdate imp u).unitValue)
    ∧ (∀ imp, |imp.totalValue - imp.quantity * imp.unitValue| > (1 / 100 : ℚ) →
      (validateHook imp).totalValue = imp.quantity * imp.unitValue) := by
  have hook_exact : ∀ (imp : CbamImport),
      imp.totalValue = imp.quantity * imp.unitValue → validateHook imp = imp := by
    intro imp h
    simp only [validateHook, h, sub_self]
    rw [show mathAbs 0 = 0 from rfl, if_neg (by rw [tolerance_eq]; norm_num)]
  refine ⟨?_, ?_, ?_, ?_⟩
  · intro st f product newId st2 h
    unfold createImportRoute at h
    split at h
    · exact absurd h (by simp)
    split at h
    · split at h
      · exact absurd h (by simp)
      · rename_i p _
        split at h
        · exact absurd h (by simp)
        · injection h with h
          subst h
          exact ⟨_, rfl, by rw [hook_exact _ rfl]⟩
    · exact absurd h (by simp)
  · intro st f v product newId
    cases f
    rfl
  · intro imp u h
    have hcond : (u.quantity.isSome || u.unitValue.isSome) = true := by
      rcases h with h | h <;> simp [h]
    simp [applyImportUpdate, hcond]
  · intro imp h
    simp only [validateHook]
    rw [if_pos (by rw [mathAbs_eq_abs, tolerance_eq]; exact h)]

/-- Witness for C7: a concrete creation ignores the bogus client
`totalValue`, a concrete quantity update recomputes the product, and the
hook corrects the drifted sample line. -/
theorem totalValue_spec_witness :
    (∃ line, (⟨draftOneLineDecl, [sampleImport]⟩ : DeclState).imports
        = draftState7.imports ++ [line]
      ∧ line.totalValue = sampleRawForm.quantity * sampleRawForm.unitValue)
    ∧ (createImportRoute draftState7 { sampleRawForm with totalValue := some 7 }
        (some sampleProduct) 1
      = createImportRoute draftState7 sampleRawForm (some sampleProduct) 1)
    ∧ ((applyImportUpdate sampleImport { quantity := some 20 }).totalValue
      = (applyImportUpdate sampleImport { quantity := some 20 }).quantity
        * (applyImportUpdate sampleImport { quantity := some 20 }).unitValue)
    ∧ (validateHook driftedImport).totalValue
      = driftedImport.quantity * driftedImport.unitValue := by
  refine ⟨?_, ?_, ?_, ?_⟩
  · exact totalValue_spec.1 draftState7 sampleRawForm (some sampleProduct) 1
      ⟨draftOneLineDecl, [sampleImport]⟩ (by with_unfolding_all rfl)
  · exact totalValue_spec.2.1 draftState7 sampleRawForm (some 7) (some sampleProduct) 1
  · exact totalValue_spec.2.2.1 sampleImport { quantity := some 20 } (Or.inl rfl)
  · exact totalValue_spec.2.2.2 driftedImport
      (by rw [← mathAbs_eq_abs, ← tolerance_eq]
          exact of_decide_eq_true (by with_unfolding_all rfl))

/-- C10: through the public HTTP interface the statuses validated, rejected
and pending are unreachable — for every sequence of API operations run
against a freshly created declaration (status draft, no import lines), any
surviving declaration state has status draft or submitted.  The
declaration-update route grants only the draft-to-submitted and
rejected-to-draft transitions, and no route invokes the validate or reject
model methods. -/
theorem api_status_reachability (d0 : Declaration) (ops : List ApiOp)
    (st : DeclState) (h0 : d0.status = .draft)
    (h : runOps ops ⟨d0, []⟩ = some st) :
    st.decl.status = .draft ∨ st.decl.status = .submitted :=
  runOps_status ops ⟨d0, []⟩ st (Or.inl h0) h

/-- Witness for C10: the concrete two-step run — create an import line on the
fresh draft declaration, then submit it — ends in the submitted state, inside
{draft, submitted}. -/
theorem api_status_reachability_witness :
    submittedState.decl.status = .draft ∨ submittedState.decl.status = .submitted :=
  api_status_reachability draftEmptyDecl c10Ops submittedState rfl
    (by with_unfolding_all rfl)

/-- Witness for C4: all four mutations on the submitted sample declaration
fail with DeclarationNotEditable. -/
theorem notEditable_mutations_witness :
    (submittedState.decl.status = .submitted ∨ submittedState.decl.status = .validated)
    ∧ createImportRoute submittedState sampleRawForm (some sampleProduct) 2
      = .error .declarationNotEditable
    ∧ updateImportRoute submittedState 1 {} = .error .declarationNotEditable
    ∧ deleteImportRoute submittedState 1 = .error .declarationNotEditable
    ∧ deleteDeclarationRoute submittedState = .error .declarationNotEditable := by
  have h := notEditable_mutations submittedState (Or.inl rfl)
  exact ⟨Or.inl rfl, h.1 sampleRawForm (some sampleProduct) 2, h.2.1 1 {},
         h.2.2.1 1, h.2.2.2⟩

end Cbam
